import Mathlib

/-!
Shallow embedding of the BananaGen image studio (React front end).

The repository stores image records (`GeneratedImage` in `types.ts`) in a
React state list owned by `App.tsx`, mirrored to a local-storage slot.
New records are produced by the prompt form (`Generator.tsx`) or by the
AI-edit action of the studio editor (`Editor.tsx`); the editor also
reconstructs a version-history lineage for the focused record.  The
remote Gemini round trips (`services/geminiService.ts`) are modelled as
oracle parameters of type `Except String String` (`ok url` for a
successful response, `error msg` for a thrown error); everything that
the repository itself computes is embedded as executable Lean functions.
-/

namespace BananaGen

/-- Aspect-ratio enumeration from `types.ts` (`AspectRatio`):
one of "1:1", "3:4", "4:3", "9:16", "16:9". -/
inductive AspectRatio where
  | r1x1
  | r3x4
  | r4x3
  | r9x16
  | r16x9
deriving DecidableEq

/-- String rendering of an aspect ratio, as it is stored in a record. -/
def AspectRatio.str : AspectRatio → String
  | .r1x1 => "1:1"
  | .r3x4 => "3:4"
  | .r4x3 => "4:3"
  | .r9x16 => "9:16"
  | .r16x9 => "16:9"

/-- The `ASPECT_RATIOS` constant of `types.ts`, rendered to strings. -/
def ratioStrings : List String := ["1:1", "3:4", "4:3", "9:16", "16:9"]

theorem AspectRatio.str_mem_ratioStrings (a : AspectRatio) :
    a.str ∈ ratioStrings := by
  cases a <;> simp [AspectRatio.str, ratioStrings]

/-- Image record from `types.ts` (`GeneratedImage`), together with the
optional `parentId` back-reference that `Editor.tsx` attaches to records
produced by an AI edit (absent, i.e. `none`, on originally generated
records). `timestamp` is the `Date.now()` value. -/
structure GeneratedImage where
  id : String
  url : String
  prompt : String
  aspectRatio : String
  timestamp : Nat
  model : String
  parentId : Option String := none
deriving DecidableEq

/-- View modes of `App.tsx` (`ViewMode` in `types.ts`). -/
inductive ViewMode where
  | generate
  | gallery
  | editor
deriving DecidableEq

/-! ## Gemini service (`services/geminiService.ts`) -/

/-- Characters matched by an unflagged `.` in a JavaScript regular
expression: anything but a line terminator. -/
def dotChar (c : Char) : Bool :=
  c ≠ '\n' && c ≠ '\r' && c ≠ '\u2028' && c ≠ '\u2029'

/-- The literal prefix of the data-URL pattern. -/
def dataColon : List Char := "data:".data

/-- The literal separator of the data-URL pattern. -/
def base64Sep : List Char := ";base64,".data

/-- Whether the text after `data:` splits at position `i` into a nonempty
mime group, the literal `;base64,`, and a nonempty data group, with both
groups free of line terminators. -/
def dataUrlSplitAt (rest : List Char) (i : Nat) : Bool :=
  decide (1 ≤ i) && (rest.take i).all dotChar &&
    ((rest.drop i).take 8 == base64Sep) &&
    (!((rest.drop i).drop 8).isEmpty) && ((rest.drop i).drop 8).all dotChar

/-- Whether the regular expression `^data:(.+);base64,(.+)$` of
`editImageWithGemini` matches the input: the string is
`"data:" ++ mime ++ ";base64," ++ data` for some nonempty `mime` and
`data` free of line terminators. -/
def matchDataUrl (s : String) : Bool :=
  (s.data.take 5 == dataColon) &&
    (List.range (s.data.drop 5).length).any (dataUrlSplitAt (s.data.drop 5))

/-- Model of `generateImageWithGemini`: missing API key throws before any
remote work; a thrown remote error is re-thrown with a fallback message
when its own message is empty. -/
def generateImageWithGemini (hasKey : Bool) (remote : Except String String) :
    Except String String :=
  if !hasKey then
    Except.error "API Key is missing. Please configure your environment."
  else
    match remote with
    | .ok url => .ok url
    | .error e => .error (if e = "" then "Failed to generate image." else e)

/-- Model of `editImageWithGemini`: the API-key check, then the data-URL
regular-expression check, both before the remote call.  The second
component records whether the remote call was made at all. -/
def editImageWithGemini (hasKey : Bool) (base64Image : String)
    (remote : Except String String) : Except String String × Bool :=
  if !hasKey then
    (Except.error "API Key is missing.", false)
  else if matchDataUrl base64Image then
    match remote with
    | .ok url => (.ok url, true)
    | .error e => (.error (if e = "" then "Failed to edit image." else e), true)
  else
    (Except.error "Invalid image format. Expected data URL.", false)

/-! ## String trimming (JavaScript `String.prototype.trim`) -/

/-- The JavaScript WhiteSpace and LineTerminator characters removed by
`trim`. -/
def jsWhitespace (c : Char) : Bool :=
  c = ' ' || c = '\t' || c = '\n' || c = '\r' || c = '\x0b' || c = '\x0c' ||
  c = '\u00A0' || c = '\u1680' ||
  (0x2000 ≤ c.toNat && c.toNat ≤ 0x200A) ||
  c = '\u2028' || c = '\u2029' || c = '\u202F' || c = '\u205F' ||
  c = '\u3000' || c = '\uFEFF'

/-- Model of JavaScript `s.trim()`. -/
def jsTrim (s : String) : String :=
  ⟨((s.data.dropWhile jsWhitespace).reverse.dropWhile jsWhitespace).reverse⟩

/-! ## Component handlers (`Generator.tsx`, `Editor.tsx`) -/

/-- Outcome of one run of a submit handler: the record handed to
`onImageGenerated` / `onImageSave` (if any), the message passed to
`setError` (if any), and whether the handler invoked the Gemini service
at all (`false` exactly when it returned before the `try` block). -/
structure HandlerResult where
  newImage : Option GeneratedImage
  errorMsg : Option String
  calledService : Bool
deriving DecidableEq

/-- Model of `handleGenerate` in `Generator.tsx`: a blank prompt returns
immediately; otherwise the service result either becomes a fresh record
(with the caller-supplied uuid and no `parentId`) or an error message. -/
def handleGenerate (prompt : String) (ratio : AspectRatio) (freshId : String)
    (now : Nat) (hasKey : Bool) (remote : Except String String) :
    HandlerResult :=
  if (jsTrim prompt).isEmpty then ⟨none, none, false⟩
  else
    match generateImageWithGemini hasKey remote with
    | .ok imageUrl =>
        ⟨some { id := freshId, url := imageUrl, prompt := prompt,
                aspectRatio := ratio.str, timestamp := now,
                model := "gemini-2.5-flash-image", parentId := none },
          none, true⟩
    | .error e =>
        ⟨none,
          some (if e = "" then "Something went wrong while generating the image."
                else e),
          true⟩

/-- Model of `handleAiEdit` in `Editor.tsx`: a blank instruction returns
immediately; otherwise the current canvas data URL (or, with no canvas,
the source record's `url`) is sent to `editImageWithGemini`, and a
successful result becomes a fresh record that inherits the source's
`aspectRatio` and carries `parentId := some image.id`. -/
def handleAiEdit (image : GeneratedImage) (editPrompt : String)
    (freshId : String) (now : Nat) (canvasData : Option String)
    (hasKey : Bool) (remote : Except String String) : HandlerResult :=
  if (jsTrim editPrompt).isEmpty then ⟨none, none, false⟩
  else
    let sourceImage := canvasData.getD image.url
    match editImageWithGemini hasKey sourceImage remote with
    | (.ok newImageUrl, _) =>
        ⟨some { id := freshId, url := newImageUrl,
                prompt := "Edit: " ++ editPrompt,
                aspectRatio := image.aspectRatio,
                timestamp := now, model := "gemini-2.5-flash-image",
                parentId := some image.id },
          none, true⟩
    | (.error e, called) =>
        ⟨none, some (if e = "" then "Failed to edit image" else e), called⟩

/-! ## App state and store operations (`App.tsx`) -/

/-- The state owned by `App.tsx`: the record store (`images`), the
record focused in the editor (`selectedImage`), and the current view. -/
structure AppState where
  currentView : ViewMode
  images : List GeneratedImage
  selectedImage : Option GeneratedImage
deriving DecidableEq

/-- Initial React state of `App.tsx`. -/
def initialAppState : AppState := ⟨.generate, [], none⟩

/-- The ids of the records of a store. -/
def imageIds (l : List GeneratedImage) : List String :=
  l.map GeneratedImage.id

/-- Model of `handleImageGenerated`: prepend the new record to the store,
switch to the editor, focus the new record. -/
def handleImageGenerated (newImage : GeneratedImage) (st : AppState) :
    AppState :=
  ⟨.editor, newImage :: st.images, some newImage⟩

/-- Model of `handleSelectImage`: focus a gallery record in the editor. -/
def handleSelectImage (image : GeneratedImage) (st : AppState) : AppState :=
  { st with selectedImage := some image, currentView := .editor }

/-- Model of `handleDeleteImage`: drop every record whose id equals the
target; if the focused record was the target, clear the focus and return
to the gallery. -/
def handleDeleteImage (targetId : String) (st : AppState) : AppState :=
  let images := st.images.filter (fun img => img.id != targetId)
  match st.selectedImage with
  | some sel =>
      if sel.id == targetId then ⟨.gallery, images, none⟩
      else { st with images := images }
  | none => { st with images := images }

/-- Model of the load effect of `App.tsx`: `saved` is the value read from
the local-storage slot (if any) and `parse` is the `JSON.parse` oracle;
a parse failure is caught (and logged), leaving the initial empty store. -/
def loadImages (saved : Option String)
    (parse : String → Option (List GeneratedImage)) : List GeneratedImage :=
  match saved with
  | none => []
  | some s =>
      match parse s with
      | some imgs => imgs
      | none => []

/-! ## Lineage reconstruction (`historyLineage` memo of `Editor.tsx`) -/

/-- The parent lookup `allImages.find(img => img.id === pid)`. -/
def findParent (allImages : List GeneratedImage) (pid : String) :
    Option GeneratedImage :=
  allImages.find? (fun img => img.id == pid)

/-- The ancestor-walk while loop of the `historyLineage` memo, with the
accumulated `lineage` (built by `unshift`, i.e. prepending) and the
`visited` id set (as a list).  The walk stops when the current record is
undefined or its id was already visited; `fuel` bounds the recursion and,
started at `allImages.length + 1`, is never exhausted before one of those
two exit conditions holds, because each iteration adds a distinct id
drawn from the focal record's id plus the ids of `allImages` (see
`chainWalk_fuel_irrelevant`). -/
def chainWalk (allImages : List GeneratedImage) :
    Nat → Option GeneratedImage → List String → List GeneratedImage →
    List GeneratedImage × List String
  | 0, _, visited, lineage => (lineage, visited)
  | _ + 1, none, visited, lineage => (lineage, visited)
  | fuel + 1, some curr, visited, lineage =>
      if curr.id ∈ visited then (lineage, visited)
      else
        match curr.parentId with
        | some pid =>
            chainWalk allImages fuel (findParent allImages pid)
              (curr.id :: visited) (curr :: lineage)
        | none => (curr :: lineage, curr.id :: visited)

/-- The final `sort((a, b) => a.timestamp - b.timestamp)` of the memo:
JavaScript `Array.prototype.sort` is a stable ascending sort, and a
stable sort by a total preorder is unique, so the stable
`List.insertionSort` computes exactly its result. -/
def sortByTimestamp (l : List GeneratedImage) : List GeneratedImage :=
  l.insertionSort (fun a b => a.timestamp ≤ b.timestamp)

/-- Model of the `historyLineage` memo of `Editor.tsx`: the ancestor
chain of the focal record, then the focal record's immediate children
that the chain did not already visit, sorted by timestamp. -/
def historyLineage (image : GeneratedImage)
    (allImages : List GeneratedImage) : List GeneratedImage :=
  let walked := chainWalk allImages (allImages.length + 1) (some image) [] []
  let children := allImages.filter (fun img => img.parentId == some image.id)
  let extra := children.filter (fun child => !(walked.2.contains child.id))
  sortByTimestamp (walked.1 ++ extra)

/-! ## User actions and reachable states -/

/-- One user-visible action of the app.  `freshId` is the uuid produced
by `uuidv4()`; `remote` is the outcome of the remote Gemini round trip;
`canvasData` is the editor canvas's current data URL, when a canvas is
mounted. -/
inductive Op where
  | generate (prompt : String) (ratio : AspectRatio) (freshId : String)
      (now : Nat) (hasKey : Bool) (remote : Except String String)
  | aiEdit (editPrompt : String) (freshId : String) (now : Nat)
      (canvasData : Option String) (hasKey : Bool)
      (remote : Except String String)
  | select (image : GeneratedImage)
  | delete (targetId : String)

/-- Effect of one action on the app state.  A generate submit hands a
successful record to `handleImageGenerated`; an AI edit does the same
with the focused record as source (the editor is only mounted when a
record is focused); select and delete are the `App.tsx` handlers. -/
def applyOp (st : AppState) : Op → AppState
  | .generate prompt ratio freshId now hasKey remote =>
      match (handleGenerate prompt ratio freshId now hasKey remote).newImage with
      | some img => handleImageGenerated img st
      | none => st
  | .aiEdit editPrompt freshId now canvasData hasKey remote =>
      match st.selectedImage with
      | none => st
      | some src =>
          match (handleAiEdit src editPrompt freshId now canvasData hasKey
              remote).newImage with
          | some img => handleImageGenerated img st
          | none => st
  | .select image => handleSelectImage image st
  | .delete targetId => handleDeleteImage targetId st

/-- Environment facts the app relies on for an action: `uuidv4()` never
repeats an id already in the store, and the gallery only offers records
of the store for selection. -/
def ValidOp (st : AppState) : Op → Prop
  | .generate _ _ freshId _ _ _ => freshId ∉ imageIds st.images
  | .aiEdit _ freshId _ _ _ _ => freshId ∉ imageIds st.images
  | .select image => image ∈ st.images
  | .delete _ => True

/-- States reachable from the initial state by valid actions. -/
inductive Reachable : AppState → Prop where
  | init : Reachable initialAppState
  | step {st : AppState} (op : Op) : Reachable st → ValidOp st op →
      Reachable (applyOp st op)

/-! ## Shape of the records the two handlers create -/

theorem handleAiEdit_fields {src : GeneratedImage} {editPrompt freshId : String}
    {now : Nat} {canvasData : Option String} {hasKey : Bool}
    {remote : Except String String} {img : GeneratedImage}
    (h : (handleAiEdit src editPrompt freshId now canvasData hasKey
        remote).newImage = some img) :
    img.id = freshId ∧ img.aspectRatio = src.aspectRatio ∧
      img.parentId = some src.id := by
  unfold handleAiEdit at h
  split at h
  · simp at h
  · dsimp only at h
    split at h
    · simp only [HandlerResult.newImage, Option.some.injEq] at h
      subst h
      exact ⟨rfl, rfl, rfl⟩
    · simp at h

theorem handleGenerate_fields {prompt : String} {ratio : AspectRatio}
    {freshId : String} {now : Nat} {hasKey : Bool}
    {remote : Except String String} {img : GeneratedImage}
    (h : (handleGenerate prompt ratio freshId now hasKey
        remote).newImage = some img) :
    img.id = freshId ∧ img.aspectRatio = ratio.str ∧ img.parentId = none := by
  unfold handleGenerate at h
  split at h
  · simp at h
  · split at h
    · simp only [HandlerResult.newImage, Option.some.injEq] at h
      subst h
      exact ⟨rfl, rfl, rfl⟩
    · simp at h

/-- C1: every record created by the AI-edit handler carries `parentId`
equal to the source image's id, and every record created by the
generation handler carries no `parentId`. -/
theorem edit_sets_parentId_generation_leaves_it_absent
    (src : GeneratedImage) (editPrompt freshId : String) (now : Nat)
    (canvasData : Option String) (prompt : String) (ratio : AspectRatio)
    (freshId' : String) (now' : Nat) (hasKey hasKey' : Bool)
    (remote remote' : Except String String) (img img' : GeneratedImage) :
    ((handleAiEdit src editPrompt freshId now canvasData hasKey
        remote).newImage = some img → img.parentId = some src.id)
    ∧ ((handleGenerate prompt ratio freshId' now' hasKey'
        remote').newImage = some img' → img'.parentId = none) :=
  ⟨fun h => (handleAiEdit_fields h).2.2, fun h => (handleGenerate_fields h).2.2⟩

/-- Closed instance of `edit_sets_parentId_generation_leaves_it_absent`. -/
theorem edit_sets_parentId_generation_leaves_it_absent_witness :
    (GeneratedImage.parentId
        ⟨"b", "u", "Edit: red", "1:1", 1, "gemini-2.5-flash-image", some "a"⟩
      = some (GeneratedImage.id
        ⟨"a", "data:image/png;base64,AAAA", "p", "1:1", 0, "m", none⟩))
    ∧ (GeneratedImage.parentId
        ⟨"g", "u", "cat", "1:1", 5, "gemini-2.5-flash-image", none⟩ = none) :=
  ⟨(edit_sets_parentId_generation_leaves_it_absent
      ⟨"a", "data:image/png;base64,AAAA", "p", "1:1", 0, "m", none⟩
      "red" "b" 1 none "cat" .r1x1 "g" 5 true true (.ok "u") (.ok "u")
      ⟨"b", "u", "Edit: red", "1:1", 1, "gemini-2.5-flash-image", some "a"⟩
      ⟨"g", "u", "cat", "1:1", 5, "gemini-2.5-flash-image", none⟩).1 (by decide),
   (edit_sets_parentId_generation_leaves_it_absent
      ⟨"a", "data:image/png;base64,AAAA", "p", "1:1", 0, "m", none⟩
      "red" "b" 1 none "cat" .r1x1 "g" 5 true true (.ok "u") (.ok "u")
      ⟨"b", "u", "Edit: red", "1:1", 1, "gemini-2.5-flash-image", some "a"⟩
      ⟨"g", "u", "cat", "1:1", 5, "gemini-2.5-flash-image", none⟩).2 (by decide)⟩

/-- C3: a present but malformed persisted store value (deserialization
fails) is not fatal: the in-memory store initializes to the empty
collection. -/
theorem load_malformed_initializes_empty (s : String)
    (parse : String → Option (List GeneratedImage)) (h : parse s = none) :
    loadImages (some s) parse = [] := by
  simp [loadImages, h]

/-- Closed instance of `load_malformed_initializes_empty`. -/
theorem load_malformed_initializes_empty_witness :
    ((fun _ : String => (none : Option (List GeneratedImage))) "nonsense"
      = none)
    ∧ loadImages (some "nonsense") (fun _ => none) = [] :=
  ⟨rfl, load_malformed_initializes_empty "nonsense" (fun _ => none) rfl⟩

/-- C6: `handleImageGenerated` inserts the new record at the front of the
store, leaves every previously stored record present in its prior
relative order (the tail is exactly the old store), and performs no
uniqueness check: the conclusion holds for every new record, including
one whose id already occurs in the store. -/
theorem append_front_no_uniqueness_check (newImage : GeneratedImage)
    (st : AppState) :
    (handleImageGenerated newImage st).images.head? = some newImage
    ∧ (handleImageGenerated newImage st).images.tail = st.images
    ∧ (handleImageGenerated newImage st).images.length = st.images.length + 1
    ∧ ∀ r ∈ st.images, r ∈ (handleImageGenerated newImage st).images :=
  ⟨rfl, rfl, rfl, fun _ hr => List.mem_cons_of_mem _ hr⟩

/-- Closed instance of `append_front_no_uniqueness_check`, at a record
whose id already occurs in the store (the insertion still happens). -/
theorem append_front_no_uniqueness_check_witness :
    (handleImageGenerated ⟨"x", "u2", "q", "3:4", 7, "m", none⟩
        ⟨.gallery, [⟨"x", "u1", "p", "1:1", 0, "m", none⟩], none⟩).images.head?
      = some ⟨"x", "u2", "q", "3:4", 7, "m", none⟩
    ∧ (handleImageGenerated ⟨"x", "u2", "q", "3:4", 7, "m", none⟩
        ⟨.gallery, [⟨"x", "u1", "p", "1:1", 0, "m", none⟩], none⟩).images.tail
      = [⟨"x", "u1", "p", "1:1", 0, "m", none⟩]
    ∧ (handleImageGenerated ⟨"x", "u2", "q", "3:4", 7, "m", none⟩
        ⟨.gallery, [⟨"x", "u1", "p", "1:1", 0, "m", none⟩], none⟩).images.length
      = 1 + 1
    ∧ (⟨"x", "u1", "p", "1:1", 0, "m", none⟩ : GeneratedImage)
        ∈ (handleImageGenerated ⟨"x", "u2", "q", "3:4", 7, "m", none⟩
            ⟨.gallery, [⟨"x", "u1", "p", "1:1", 0, "m", none⟩], none⟩).images :=
  ⟨(append_front_no_uniqueness_check ⟨"x", "u2", "q", "3:4", 7, "m", none⟩
      ⟨.gallery, [⟨"x", "u1", "p", "1:1", 0, "m", none⟩], none⟩).1,
   (append_front_no_uniqueness_check ⟨"x", "u2", "q", "3:4", 7, "m", none⟩
      ⟨.gallery, [⟨"x", "u1", "p", "1:1", 0, "m", none⟩], none⟩).2.1,
   (append_front_no_uniqueness_check ⟨"x", "u2", "q", "3:4", 7, "m", none⟩
      ⟨.gallery, [⟨"x", "u1", "p", "1:1", 0, "m", none⟩], none⟩).2.2.1,
   (append_front_no_uniqueness_check ⟨"x", "u2", "q", "3:4", 7, "m", none⟩
      ⟨.gallery, [⟨"x", "u1", "p", "1:1", 0, "m", none⟩], none⟩).2.2.2
      ⟨"x", "u1", "p", "1:1", 0, "m", none⟩ (by decide)⟩

/-- C8: for every input string that the data-URL regular expression
`^data:(.+);base64,(.+)$` does not match, `editImageWithGemini` throws
before making any remote call (second component `false`), whatever the
API-key state and whatever the remote oracle would have answered. -/
theorem edit_rejects_non_dataurl (hasKey : Bool) (base64Image : String)
    (remote : Except String String) (h : matchDataUrl base64Image = false) :
    (editImageWithGemini hasKey base64Image remote).2 = false
    ∧ ∃ e, (editImageWithGemini hasKey base64Image remote).1
        = Except.error e := by
  unfold editImageWithGemini
  cases hasKey with
  | false => exact ⟨rfl, "API Key is missing.", rfl⟩
  | true => simp [h]

/-- Closed instance of `edit_rejects_non_dataurl`. -/
theorem edit_rejects_non_dataurl_witness :
    matchDataUrl "banana" = false
    ∧ ((editImageWithGemini true "banana" (Except.ok "u")).2 = false
      ∧ ∃ e, (editImageWithGemini true "banana" (Except.ok "u")).1
          = Except.error e) :=
  ⟨by decide, edit_rejects_non_dataurl true "banana" (Except.ok "u") (by decide)⟩

/-- C10: a prompt that is blank after trimming makes both submit handlers
return immediately: no service call, no new record, no error message, and
the app state is unchanged. -/
theorem blank_prompt_no_call_no_record (st : AppState) (prompt : String)
    (ratio : AspectRatio) (freshId freshId' : String) (now now' : Nat)
    (src : GeneratedImage) (canvasData : Option String) (hasKey hasKey' : Bool)
    (remote remote' : Except String String)
    (h : (jsTrim prompt).isEmpty = true) :
    handleGenerate prompt ratio freshId now hasKey remote = ⟨none, none, false⟩
    ∧ handleAiEdit src prompt freshId' now' canvasData hasKey' remote'
        = ⟨none, none, false⟩
    ∧ applyOp st (.generate prompt ratio freshId now hasKey remote) = st
    ∧ applyOp st (.aiEdit prompt freshId' now' canvasData hasKey' remote')
        = st := by
  have hg : handleGenerate prompt ratio freshId now hasKey remote
      = ⟨none, none, false⟩ := by
    unfold handleGenerate
    simp [h]
  have he : ∀ (i : GeneratedImage) (fid : String) (n : Nat)
      (cv : Option String) (k : Bool) (rm : Except String String),
      handleAiEdit i prompt fid n cv k rm = ⟨none, none, false⟩ := by
    intro i fid n cv k rm
    unfold handleAiEdit
    simp [h]
  refine ⟨hg, he src freshId' now' canvasData hasKey' remote', ?_, ?_⟩
  · show (match (handleGenerate prompt ratio freshId now hasKey
        remote).newImage with
      | some img => handleImageGenerated img st
      | none => st) = st
    rw [hg]
  · show (match st.selectedImage with
      | none => st
      | some src' =>
          match (handleAiEdit src' prompt freshId' now' canvasData hasKey'
              remote').newImage with
          | some img => handleImageGenerated img st
          | none => st) = st
    cases st.selectedImage with
    | none => rfl
    | some src' =>
        dsimp only
        rw [he src' freshId' now' canvasData hasKey' remote']

/-- Closed instance of `blank_prompt_no_call_no_record`. -/
theorem blank_prompt_no_call_no_record_witness :
    (jsTrim "  ").isEmpty = true
    ∧ (handleGenerate "  " .r1x1 "i" 0 true (.ok "u") = ⟨none, none, false⟩
      ∧ handleAiEdit ⟨"a", "b", "c", "1:1", 0, "m", none⟩ "  " "j" 1 none true
          (.ok "u") = ⟨none, none, false⟩
      ∧ applyOp initialAppState (.generate "  " .r1x1 "i" 0 true (.ok "u"))
          = initialAppState
      ∧ applyOp initialAppState (.aiEdit "  " "j" 1 none true (.ok "u"))
          = initialAppState) :=
  ⟨by decide,
   blank_prompt_no_call_no_record initialAppState "  " .r1x1 "i" "j" 0 1
     ⟨"a", "b", "c", "1:1", 0, "m", none⟩ none true true (.ok "u") (.ok "u")
     (by decide)⟩

/-! ## Gateway failures commit nothing (claim C4) -/

theorem handleGenerate_error {prompt : String} {ratio : AspectRatio}
    {freshId : String} {now : Nat} {hasKey : Bool}
    {remote : Except String String} {e : String}
    (hp : (jsTrim prompt).isEmpty = false)
    (hg : generateImageWithGemini hasKey remote = Except.error e) :
    handleGenerate prompt ratio freshId now hasKey remote
      = ⟨none, some (if e = "" then
          "Something went wrong while generating the image." else e), true⟩ := by
  unfold handleGenerate
  rw [hp, hg]
  rfl

theorem handleAiEdit_error {src : GeneratedImage} {editPrompt freshId : String}
    {now : Nat} {canvasData : Option String} {hasKey : Bool}
    {remote : Except String String} {e : String} {called : Bool}
    (hep : (jsTrim editPrompt).isEmpty = false)
    (he : editImageWithGemini hasKey (canvasData.getD src.url) remote
        = (Except.error e, called)) :
    handleAiEdit src editPrompt freshId now canvasData hasKey remote
      = ⟨none, some (if e = "" then "Failed to edit image" else e), called⟩ := by
  unfold handleAiEdit
  rw [hep]
  dsimp only
  rw [he]
  rfl

/-- C4: when a Gateway call fails (the service model returns an error),
no record is produced, the failure is surfaced as an error message, and
the whole app state — in particular the store — is unchanged.  The model
has no retry path: one action performs at most the one service call whose
outcome is the `remote` parameter. -/
theorem gateway_failure_commits_nothing (st : AppState) (prompt : String)
    (ratio : AspectRatio) (freshId freshId' : String) (now now' : Nat)
    (src : GeneratedImage) (editPrompt : String) (canvasData : Option String)
    (hasKey hasKey' : Bool) (remote remote' : Except String String)
    (e e' : String) (called : Bool)
    (hsel : st.selectedImage = some src)
    (hp : (jsTrim prompt).isEmpty = false)
    (hep : (jsTrim editPrompt).isEmpty = false)
    (hg : generateImageWithGemini hasKey remote = Except.error e)
    (he : editImageWithGemini hasKey' (canvasData.getD src.url) remote'
        = (Except.error e', called)) :
    ((handleGenerate prompt ratio freshId now hasKey remote).newImage = none
      ∧ (∃ m, (handleGenerate prompt ratio freshId now hasKey
          remote).errorMsg = some m)
      ∧ applyOp st (.generate prompt ratio freshId now hasKey remote) = st)
    ∧ ((handleAiEdit src editPrompt freshId' now' canvasData hasKey'
          remote').newImage = none
      ∧ (∃ m, (handleAiEdit src editPrompt freshId' now' canvasData hasKey'
          remote').errorMsg = some m)
      ∧ applyOp st (.aiEdit editPrompt freshId' now' canvasData hasKey'
          remote') = st) := by
  have hG := @handleGenerate_error prompt ratio freshId now hasKey remote e
    hp hg
  have hE := @handleAiEdit_error src editPrompt freshId' now' canvasData
    hasKey' remote' e' called hep he
  refine ⟨⟨by rw [hG], ⟨_, by rw [hG]⟩, ?_⟩, ⟨by rw [hE], ⟨_, by rw [hE]⟩, ?_⟩⟩
  · show (match (handleGenerate prompt ratio freshId now hasKey
        remote).newImage with
      | some img => handleImageGenerated img st
      | none => st) = st
    rw [hG]
  · show (match st.selectedImage with
      | none => st
      | some src' =>
          match (handleAiEdit src' editPrompt freshId' now' canvasData hasKey'
              remote').newImage with
          | some img => handleImageGenerated img st
          | none => st) = st
    rw [hsel]
    dsimp only
    rw [hE]

/-- Closed instance of `gateway_failure_commits_nothing`, with failures
caused by a missing API key. -/
theorem gateway_failure_commits_nothing_witness :
    ((handleGenerate "cat" .r1x1 "i" 0 false (.ok "u")).newImage = none
      ∧ (∃ m, (handleGenerate "cat" .r1x1 "i" 0 false
          (.ok "u")).errorMsg = some m)
      ∧ applyOp ⟨.editor, [⟨"a", "u", "p", "1:1", 0, "m", none⟩],
            some ⟨"a", "u", "p", "1:1", 0, "m", none⟩⟩
          (.generate "cat" .r1x1 "i" 0 false (.ok "u"))
        = ⟨.editor, [⟨"a", "u", "p", "1:1", 0, "m", none⟩],
            some ⟨"a", "u", "p", "1:1", 0, "m", none⟩⟩)
    ∧ ((handleAiEdit ⟨"a", "u", "p", "1:1", 0, "m", none⟩ "red" "j" 1 none
          false (.ok "u")).newImage = none
      ∧ (∃ m, (handleAiEdit ⟨"a", "u", "p", "1:1", 0, "m", none⟩ "red" "j" 1
          none false (.ok "u")).errorMsg = some m)
      ∧ applyOp ⟨.editor, [⟨"a", "u", "p", "1:1", 0, "m", none⟩],
            some ⟨"a", "u", "p", "1:1", 0, "m", none⟩⟩
          (.aiEdit "red" "j" 1 none false (.ok "u"))
        = ⟨.editor, [⟨"a", "u", "p", "1:1", 0, "m", none⟩],
            some ⟨"a", "u", "p", "1:1", 0, "m", none⟩⟩) :=
  gateway_failure_commits_nothing
    ⟨.editor, [⟨"a", "u", "p", "1:1", 0, "m", none⟩],
      some ⟨"a", "u", "p", "1:1", 0, "m", none⟩⟩
    "cat" .r1x1 "i" "j" 0 1 ⟨"a", "u", "p", "1:1", 0, "m", none⟩ "red" none
    false false (.ok "u") (.ok "u")
    "API Key is missing. Please configure your environment."
    "API Key is missing." false
    rfl (by decide) (by decide) rfl rfl

/-! ## Deletion is exact and non-cascading (claim C5) -/

theorem handleDeleteImage_images (targetId : String) (st : AppState) :
    (handleDeleteImage targetId st).images
      = st.images.filter (fun img => img.id != targetId) := by
  unfold handleDeleteImage
  cases st.selectedImage with
  | none => rfl
  | some sel =>
      dsimp only
      split <;> rfl

theorem filter_ne_id_length {l : List GeneratedImage} {t : String}
    (hnd : (imageIds l).Nodup) {r : GeneratedImage} (hr : r ∈ l)
    (hid : r.id = t) :
    (l.filter (fun img => img.id != t)).length + 1 = l.length := by
  induction l with
  | nil => cases hr
  | cons x xs ih =>
      simp only [imageIds, List.map_cons, List.nodup_cons] at hnd
      obtain ⟨hx, hxs⟩ := hnd
      by_cases hxid : x.id = t
      · have hdrop : xs.filter (fun img => img.id != t) = xs := by
          apply List.filter_eq_self.mpr
          intro a ha
          have : a.id ∈ xs.map GeneratedImage.id := List.mem_map_of_mem _ ha
          have hne : a.id ≠ t := fun hEq => hx (hxid ▸ hEq ▸ this)
          simpa using hne
        simp [List.filter_cons, hxid, hdrop]
      · have hrxs : r ∈ xs := by
          cases List.mem_cons.mp hr with
          | inl hEq => exact absurd (hEq ▸ hid) hxid
          | inr h => exact h
        have := ih hxs hrxs
        simp [List.filter_cons, hxid]
        omega

/-- C5: deleting by id removes exactly the matching record: the result is
a sublist of the store (so every surviving record is byte-for-byte the
same record, `parentId` included, in the same relative order), every
record with a different id survives, only non-matching records survive,
an absent id makes the operation a no-op, and — when store ids are
unique — deleting a present id removes exactly one record. -/
theorem delete_exact_no_collateral (st : AppState) (targetId : String) :
    List.Sublist (handleDeleteImage targetId st).images st.images
    ∧ (∀ r ∈ st.images, r.id ≠ targetId →
        r ∈ (handleDeleteImage targetId st).images)
    ∧ (∀ r ∈ (handleDeleteImage targetId st).images,
        r ∈ st.images ∧ r.id ≠ targetId)
    ∧ ((∀ r ∈ st.images, r.id ≠ targetId) →
        (handleDeleteImage targetId st).images = st.images)
    ∧ ((imageIds st.images).Nodup → ∀ r ∈ st.images, r.id = targetId →
        (handleDeleteImage targetId st).images.length + 1
          = st.images.length) := by
  rw [handleDeleteImage_images]
  refine ⟨List.filter_sublist _, ?_, ?_, ?_, ?_⟩
  · intro r hr hne
    exact List.mem_filter.mpr ⟨hr, by simpa using hne⟩
  · intro r hr
    have := List.mem_filter.mp hr
    exact ⟨this.1, by simpa using this.2⟩
  · intro hall
    apply List.filter_eq_self.mpr
    intro a ha
    simpa using hall a ha
  · intro hnd r hr hid
    exact filter_ne_id_length hnd hr hid

/-- Closed instance of `delete_exact_no_collateral`: deleting id `a` from
a two-record store keeps the other record (whose `parentId` still points
at the deleted id), and deleting an absent id is a no-op. -/
theorem delete_exact_no_collateral_witness :
    (⟨"b", "u2", "q", "3:4", 1, "m", some "a"⟩ : GeneratedImage)
      ∈ (handleDeleteImage "a"
          ⟨.gallery, [⟨"a", "u1", "p", "1:1", 0, "m", none⟩,
            ⟨"b", "u2", "q", "3:4", 1, "m", some "a"⟩], none⟩).images
    ∧ (handleDeleteImage "a"
          ⟨.gallery, [⟨"a", "u1", "p", "1:1", 0, "m", none⟩,
            ⟨"b", "u2", "q", "3:4", 1, "m", some "a"⟩], none⟩).images.length + 1
        = 2
    ∧ (handleDeleteImage "z"
          ⟨.gallery, [⟨"a", "u1", "p", "1:1", 0, "m", none⟩,
            ⟨"b", "u2", "q", "3:4", 1, "m", some "a"⟩], none⟩).images
        = [⟨"a", "u1", "p", "1:1", 0, "m", none⟩,
            ⟨"b", "u2", "q", "3:4", 1, "m", some "a"⟩] :=
  ⟨(delete_exact_no_collateral
      ⟨.gallery, [⟨"a", "u1", "p", "1:1", 0, "m", none⟩,
        ⟨"b", "u2", "q", "3:4", 1, "m", some "a"⟩], none⟩ "a").2.1
      ⟨"b", "u2", "q", "3:4", 1, "m", some "a"⟩ (by decide) (by decide),
   (delete_exact_no_collateral
      ⟨.gallery, [⟨"a", "u1", "p", "1:1", 0, "m", none⟩,
        ⟨"b", "u2", "q", "3:4", 1, "m", some "a"⟩], none⟩ "a").2.2.2.2
      (by decide) ⟨"a", "u1", "p", "1:1", 0, "m", none⟩ (by decide) rfl,
   (delete_exact_no_collateral
      ⟨.gallery, [⟨"a", "u1", "p", "1:1", 0, "m", none⟩,
        ⟨"b", "u2", "q", "3:4", 1, "m", some "a"⟩], none⟩ "z").2.2.2.1
      (by decide)⟩

/-! ## Store invariants over reachable states (claims C7 and C9) -/

theorem reachable_ratio_invariant {st : AppState} (h : Reachable st) :
    (∀ r ∈ st.images, r.aspectRatio ∈ ratioStrings)
    ∧ (∀ sel, st.selectedImage = some sel →
        sel.aspectRatio ∈ ratioStrings) := by
  induction h with
  | init =>
      exact ⟨fun r hr => absurd hr (List.not_mem_nil r),
        fun sel hsel => by cases hsel⟩
  | @step st' op hr hv ih =>
      obtain ⟨ihImg, ihSel⟩ := ih
      cases op with
      | generate prompt ratio freshId now hasKey remote =>
          simp only [applyOp]
          cases hni : (handleGenerate prompt ratio freshId now hasKey
              remote).newImage with
          | none => exact ⟨ihImg, ihSel⟩
          | some img =>
              have himg : img.aspectRatio ∈ ratioStrings :=
                (handleGenerate_fields hni).2.1 ▸
                  AspectRatio.str_mem_ratioStrings ratio
              refine ⟨fun r hrmem => ?_, fun sel hsel => ?_⟩
              · rcases List.mem_cons.mp hrmem with hEq | hmem
                · exact hEq ▸ himg
                · exact ihImg r hmem
              · injection hsel with hEq
                exact hEq ▸ himg
      | aiEdit editPrompt freshId now canvasData hasKey remote =>
          simp only [applyOp]
          cases hsel0 : st'.selectedImage with
          | none => exact ⟨ihImg, ihSel⟩
          | some src =>
              dsimp only
              cases hni : (handleAiEdit src editPrompt freshId now canvasData
                  hasKey remote).newImage with
              | none => exact ⟨ihImg, ihSel⟩
              | some img =>
                  have himg : img.aspectRatio ∈ ratioStrings :=
                    (handleAiEdit_fields hni).2.1 ▸ ihSel src hsel0
                  refine ⟨fun r hrmem => ?_, fun sel hsel => ?_⟩
                  · rcases List.mem_cons.mp hrmem with hEq | hmem
                    · exact hEq ▸ himg
                    · exact ihImg r hmem
                  · injection hsel with hEq
                    exact hEq ▸ himg
      | select image =>
          exact ⟨ihImg, fun sel hsel => by
            injection hsel with hEq
            exact hEq ▸ ihImg image hv⟩
      | delete targetId =>
          refine ⟨fun r hrmem => ?_, fun sel hsel => ?_⟩
          · rw [show (applyOp st' (.delete targetId)).images
                = (handleDeleteImage targetId st').images from rfl,
              handleDeleteImage_images] at hrmem
            exact ihImg r (List.mem_filter.mp hrmem).1
          · show sel.aspectRatio ∈ ratioStrings
            revert hsel
            show (handleDeleteImage targetId st').selectedImage = some sel → _
            unfold handleDeleteImage
            cases hsel0 : st'.selectedImage with
            | none => intro hsel; cases hsel
            | some sel0 =>
                dsimp only
                split
                · intro hsel; cases hsel
                · intro hsel
                  injection hsel with hEq
                  exact hEq ▸ ihSel sel0 hsel0

/-- C7: in every reachable app state, every stored record's `aspectRatio`
belongs to the fixed enumerated set {1:1, 3:4, 4:3, 9:16, 16:9}, and a
record produced by the AI-edit handler always inherits the `aspectRatio`
of its source record (the handler has no override path). -/
theorem aspectRatio_enumerated_and_inherited {st : AppState}
    (h : Reachable st) (src : GeneratedImage) (editPrompt freshId : String)
    (now : Nat) (canvasData : Option String) (hasKey : Bool)
    (remote : Except String String) (img : GeneratedImage) :
    (∀ r ∈ st.images, r.aspectRatio ∈ ratioStrings)
    ∧ ((handleAiEdit src editPrompt freshId now canvasData hasKey
        remote).newImage = some img → img.aspectRatio = src.aspectRatio) :=
  ⟨(reachable_ratio_invariant h).1, fun hni => (handleAiEdit_fields hni).2.1⟩

/-- Closed instance of `aspectRatio_enumerated_and_inherited`. -/
theorem aspectRatio_enumerated_and_inherited_witness :
    (∀ r ∈ (applyOp initialAppState
        (.generate "sky" .r9x16 "id7" 2 true (.ok "u"))).images,
      r.aspectRatio ∈ ratioStrings)
    ∧ GeneratedImage.aspectRatio
        ⟨"e", "u", "Edit: red", "3:4", 9, "gemini-2.5-flash-image", some "s"⟩
      = GeneratedImage.aspectRatio
        ⟨"s", "data:a;base64,b", "p", "3:4", 0, "m", none⟩ :=
  ⟨(aspectRatio_enumerated_and_inherited
      (Reachable.step (.generate "sky" .r9x16 "id7" 2 true (.ok "u"))
        Reachable.init (List.not_mem_nil "id7"))
      ⟨"s", "data:a;base64,b", "p", "3:4", 0, "m", none⟩ "red" "e" 9 none true
      (.ok "u")
      ⟨"e", "u", "Edit: red", "3:4", 9, "gemini-2.5-flash-image",
        some "s"⟩).1,
   (aspectRatio_enumerated_and_inherited
      (Reachable.step (.generate "sky" .r9x16 "id7" 2 true (.ok "u"))
        Reachable.init (List.not_mem_nil "id7"))
      ⟨"s", "data:a;base64,b", "p", "3:4", 0, "m", none⟩ "red" "e" 9 none true
      (.ok "u")
      ⟨"e", "u", "Edit: red", "3:4", 9, "gemini-2.5-flash-image",
        some "s"⟩).2 (by decide)⟩

/-- C9: in every reachable app state the stored record ids are pairwise
distinct: generation and edit prepend a record under the environment fact
that `uuidv4()` does not repeat an id already in the store, and deletion
only removes records. -/
theorem store_ids_unique {st : AppState} (h : Reachable st) :
    (imageIds st.images).Nodup := by
  induction h with
  | init => exact List.nodup_nil
  | @step st' op hr hv ih =>
      cases op with
      | generate prompt ratio freshId now hasKey remote =>
          simp only [applyOp]
          cases hni : (handleGenerate prompt ratio freshId now hasKey
              remote).newImage with
          | none => exact ih
          | some img =>
              have hid : img.id = freshId := (handleGenerate_fields hni).1
              show (imageIds (img :: st'.images)).Nodup
              simp only [imageIds, List.map_cons, List.nodup_cons]
              exact ⟨hid ▸ hv, ih⟩
      | aiEdit editPrompt freshId now canvasData hasKey remote =>
          simp only [applyOp]
          cases hsel0 : st'.selectedImage with
          | none => exact ih
          | some src =>
              dsimp only
              cases hni : (handleAiEdit src editPrompt freshId now canvasData
                  hasKey remote).newImage with
              | none => exact ih
              | some img =>
                  have hid : img.id = freshId := (handleAiEdit_fields hni).1
                  show (imageIds (img :: st'.images)).Nodup
                  simp only [imageIds, List.map_cons, List.nodup_cons]
                  exact ⟨hid ▸ hv, ih⟩
      | select image => exact ih
      | delete targetId =>
          show (imageIds (handleDeleteImage targetId st').images).Nodup
          rw [handleDeleteImage_images]
          exact List.Nodup.sublist (List.Sublist.map _ (List.filter_sublist _))
            ih

/-- Closed instance of `store_ids_unique`, after one generation step. -/
theorem store_ids_unique_witness :
    (imageIds (applyOp initialAppState
        (.generate "dog" .r16x9 "id9" 3 true (.ok "u"))).images).Nodup :=
  store_ids_unique
    (Reachable.step (.generate "dog" .r16x9 "id9" 3 true (.ok "u"))
      Reachable.init (List.not_mem_nil "id9"))

/-! ## Properties of the lineage walk (claim C2) -/

theorem chainWalk_zero (allImages : List GeneratedImage)
    (curr : Option GeneratedImage) (visited : List String)
    (lineage : List GeneratedImage) :
    chainWalk allImages 0 curr visited lineage = (lineage, visited) := rfl

theorem chainWalk_succ_none (allImages : List GeneratedImage) (fuel : Nat)
    (visited : List String) (lineage : List GeneratedImage) :
    chainWalk allImages (fuel + 1) none visited lineage
      = (lineage, visited) := rfl

theorem chainWalk_succ_some (allImages : List GeneratedImage) (fuel : Nat)
    (c : GeneratedImage) (visited : List String)
    (lineage : List GeneratedImage) :
    chainWalk allImages (fuel + 1) (some c) visited lineage
      = if c.id ∈ visited then (lineage, visited)
        else
          match c.parentId with
          | some pid =>
              chainWalk allImages fuel (findParent allImages pid)
                (c.id :: visited) (c :: lineage)
          | none => (c :: lineage, c.id :: visited) := rfl

theorem chainWalk_map_id (allImages : List GeneratedImage) :
    ∀ (fuel : Nat) (curr : Option GeneratedImage) (visited : List String)
      (lineage : List GeneratedImage),
      lineage.map GeneratedImage.id = visited →
      (chainWalk allImages fuel curr visited lineage).1.map GeneratedImage.id
        = (chainWalk allImages fuel curr visited lineage).2 := by
  intro fuel
  induction fuel with
  | zero => intro curr visited lineage h; exact h
  | succ n ih =>
      intro curr visited lineage h
      cases curr with
      | none => exact h
      | some c =>
          rw [chainWalk_succ_some]
          by_cases hmem : c.id ∈ visited
          · rw [if_pos hmem]; exact h
          · rw [if_neg hmem]
            cases hp : c.parentId with
            | some pid =>
                exact ih (findParent allImages pid) (c.id :: visited)
                  (c :: lineage) (by rw [List.map_cons, h])
            | none => show (c :: lineage).map _ = _; rw [List.map_cons, h]

theorem chainWalk_snd_nodup (allImages : List GeneratedImage) :
    ∀ (fuel : Nat) (curr : Option GeneratedImage) (visited : List String)
      (lineage : List GeneratedImage),
      visited.Nodup →
      (chainWalk allImages fuel curr visited lineage).2.Nodup := by
  intro fuel
  induction fuel with
  | zero => intro curr visited lineage h; exact h
  | succ n ih =>
      intro curr visited lineage h
      cases curr with
      | none => exact h
      | some c =>
          rw [chainWalk_succ_some]
          by_cases hmem : c.id ∈ visited
          · rw [if_pos hmem]; exact h
          · rw [if_neg hmem]
            cases hp : c.parentId with
            | some pid =>
                exact ih (findParent allImages pid) (c.id :: visited)
                  (c :: lineage) (List.nodup_cons.mpr ⟨hmem, h⟩)
            | none => exact List.nodup_cons.mpr ⟨hmem, h⟩

theorem chainWalk_snd_subset (allImages : List GeneratedImage) :
    ∀ (fuel : Nat) (curr : Option GeneratedImage) (visited : List String)
      (lineage : List GeneratedImage),
      ∀ i ∈ (chainWalk allImages fuel curr visited lineage).2,
        i ∈ visited ∨ (∃ c, curr = some c ∧ i = c.id)
          ∨ i ∈ allImages.map GeneratedImage.id := by
  intro fuel
  induction fuel with
  | zero => intro curr visited lineage i hi; exact Or.inl hi
  | succ n ih =>
      intro curr visited lineage i hi
      cases curr with
      | none => exact Or.inl hi
      | some c =>
          rw [chainWalk_succ_some] at hi
          by_cases hmem : c.id ∈ visited
          · rw [if_pos hmem] at hi; exact Or.inl hi
          · rw [if_neg hmem] at hi
            cases hp : c.parentId with
            | some pid =>
                rw [hp] at hi
                rcases ih (findParent allImages pid) (c.id :: visited)
                    (c :: lineage) i hi with hv | ⟨c', hc', hid⟩ | hall
                · rcases List.mem_cons.mp hv with hEq | hv'
                  · exact Or.inr (Or.inl ⟨c, rfl, hEq⟩)
                  · exact Or.inl hv'
                · have hc'mem : c' ∈ allImages :=
                    List.mem_of_find?_eq_some hc'
                  exact Or.inr (Or.inr (hid ▸ List.mem_map_of_mem _ hc'mem))
                · exact Or.inr (Or.inr hall)
            | none =>
                rw [hp] at hi
                rcases List.mem_cons.mp hi with hEq | hv'
                · exact Or.inr (Or.inl ⟨c, rfl, hEq⟩)
                · exact Or.inl hv'

theorem chainWalk_fst_mono (allImages : List GeneratedImage) :
    ∀ (fuel : Nat) (curr : Option GeneratedImage) (visited : List String)
      (lineage : List GeneratedImage),
      ∀ x ∈ lineage, x ∈ (chainWalk allImages fuel curr visited lineage).1 := by
  intro fuel
  induction fuel with
  | zero => intro curr visited lineage x hx; exact hx
  | succ n ih =>
      intro curr visited lineage x hx
      cases curr with
      | none => exact hx
      | some c =>
          rw [chainWalk_succ_some]
          by_cases hmem : c.id ∈ visited
          · rw [if_pos hmem]; exact hx
          · rw [if_neg hmem]
            cases hp : c.parentId with
            | some pid =>
                exact ih (findParent allImages pid) (c.id :: visited)
                  (c :: lineage) x (List.mem_cons_of_mem c hx)
            | none => exact List.mem_cons_of_mem c hx

theorem chainWalk_fst_subset (allImages : List GeneratedImage) :
    ∀ (fuel : Nat) (curr : Option GeneratedImage) (visited : List String)
      (lineage : List GeneratedImage),
      ∀ x ∈ (chainWalk allImages fuel curr visited lineage).1,
        x ∈ lineage ∨ curr = some x ∨ x ∈ allImages := by
  intro fuel
  induction fuel with
  | zero => intro curr visited lineage x hx; exact Or.inl hx
  | succ n ih =>
      intro curr visited lineage x hx
      cases curr with
      | none => exact Or.inl hx
      | some c =>
          rw [chainWalk_succ_some] at hx
          by_cases hmem : c.id ∈ visited
          · rw [if_pos hmem] at hx; exact Or.inl hx
          · rw [if_neg hmem] at hx
            cases hp : c.parentId with
            | some pid =>
                rw [hp] at hx
                rcases ih (findParent allImages pid) (c.id :: visited)
                    (c :: lineage) x hx with hl | hf | hall
                · rcases List.mem_cons.mp hl with hEq | hl'
                  · exact Or.inr (Or.inl (by rw [hEq]))
                  · exact Or.inl hl'
                · exact Or.inr (Or.inr (List.mem_of_find?_eq_some hf))
                · exact Or.inr (Or.inr hall)
            | none =>
                rw [hp] at hx
                rcases List.mem_cons.mp hx with hEq | hl'
                · exact Or.inr (Or.inl (by rw [hEq]))
                · exact Or.inl hl'

theorem chainWalk_mem_self (allImages : List GeneratedImage) (fuel : Nat)
    (c : GeneratedImage) (visited : List String)
    (lineage : List GeneratedImage) (h : c.id ∉ visited) :
    c ∈ (chainWalk allImages (fuel + 1) (some c) visited lineage).1 := by
  rw [chainWalk_succ_some, if_neg h]
  cases hp : c.parentId with
  | some pid =>
      exact chainWalk_fst_mono allImages fuel (findParent allImages pid)
        (c.id :: visited) (c :: lineage) c (List.mem_cons_self c lineage)
  | none => exact List.mem_cons_self c lineage

theorem historyLineage_perm (image : GeneratedImage)
    (allImages : List GeneratedImage) :
    List.Perm (historyLineage image allImages)
      ((chainWalk allImages (allImages.length + 1) (some image) [] []).1
        ++ ((allImages.filter
            (fun img => img.parentId == some image.id)).filter
          (fun child => !((chainWalk allImages (allImages.length + 1)
            (some image) [] []).2.contains child.id)))) :=
  List.perm_insertionSort _ _

/-- C2 (amended): over a store whose record ids are pairwise distinct,
the lineage has no duplicate ids, always contains the focal record, and
has length between 1 and `|S| + 1`; when the focal record is a member of
the store, the length is at most `|S|`. -/
theorem historyLineage_spec (image : GeneratedImage)
    (allImages : List GeneratedImage)
    (hnd : (imageIds allImages).Nodup) :
    ((historyLineage image allImages).map GeneratedImage.id).Nodup
    ∧ image ∈ historyLineage image allImages
    ∧ 1 ≤ (historyLineage image allImages).length
    ∧ (historyLineage image allImages).length ≤ allImages.length + 1
    ∧ (image ∈ allImages →
        (historyLineage image allImages).length ≤ allImages.length) := by
  have hperm := historyLineage_perm image allImages
  have hmap := chainWalk_map_id allImages (allImages.length + 1) (some image)
    [] [] rfl
  have hnd2 := chainWalk_snd_nodup allImages (allImages.length + 1)
    (some image) [] [] List.nodup_nil
  have hvsub : ∀ i ∈ (chainWalk allImages (allImages.length + 1) (some image)
      [] []).2, i = image.id ∨ i ∈ allImages.map GeneratedImage.id := by
    intro i hi
    rcases chainWalk_snd_subset allImages (allImages.length + 1) (some image)
        [] [] i hi with hnil | ⟨c, hc, hid⟩ | hall
    · cases hnil
    · injection hc with hc
      exact Or.inl (hc ▸ hid)
    · exact Or.inr hall
  have himg : image ∈ (chainWalk allImages (allImages.length + 1)
      (some image) [] []).1 :=
    chainWalk_mem_self allImages allImages.length image [] []
      (List.not_mem_nil _)
  rcases hW : chainWalk allImages (allImages.length + 1) (some image) [] []
    with ⟨chain, visited⟩
  rw [hW] at hperm hmap hnd2 hvsub himg
  dsimp only at hperm hmap hnd2 hvsub himg
  have hEsub : List.Sublist ((allImages.filter
        (fun img => img.parentId == some image.id)).filter
      (fun child => !(visited.contains child.id))) allImages :=
    List.Sublist.trans (List.filter_sublist _) (List.filter_sublist _)
  have hEnodup : (((allImages.filter
        (fun img => img.parentId == some image.id)).filter
      (fun child => !(visited.contains child.id))).map
        GeneratedImage.id).Nodup :=
    List.Nodup.sublist (List.Sublist.map _ hEsub) hnd
  have hEdisj : ∀ x ∈ (allImages.filter
        (fun img => img.parentId == some image.id)).filter
      (fun child => !(visited.contains child.id)), x.id ∉ visited := by
    intro x hx
    have := (List.mem_filter.mp hx).2
    simpa using this
  have hcatnodup : ((chain ++ (allImages.filter
        (fun img => img.parentId == some image.id)).filter
      (fun child => !(visited.contains child.id))).map
        GeneratedImage.id).Nodup := by
    rw [List.map_append, hmap]
    refine List.nodup_append.mpr ⟨hnd2, hEnodup, ?_⟩
    intro a hav ham
    obtain ⟨x, hxE, hxid⟩ := List.mem_map.mp ham
    exact hEdisj x hxE (hxid ▸ hav)
  have hsub : ∀ a ∈ (chain ++ (allImages.filter
        (fun img => img.parentId == some image.id)).filter
      (fun child => !(visited.contains child.id))).map GeneratedImage.id,
      a = image.id ∨ a ∈ allImages.map GeneratedImage.id := by
    intro a ha
    rw [List.map_append] at ha
    rcases List.mem_append.mp ha with hc | hE
    · exact hvsub a (hmap ▸ hc)
    · obtain ⟨x, hxE, hxid⟩ := List.mem_map.mp hE
      exact Or.inr (hxid ▸ List.mem_map_of_mem _ (hEsub.subset hxE))
  have hlen : (historyLineage image allImages).length
      = ((chain ++ (allImages.filter
          (fun img => img.parentId == some image.id)).filter
        (fun child => !(visited.contains child.id))).map
          GeneratedImage.id).length := by
    rw [List.length_map]
    exact hperm.length_eq
  refine ⟨?_, ?_, ?_, ?_, ?_⟩
  · exact (List.Perm.nodup_iff (hperm.map GeneratedImage.id)).mpr hcatnodup
  · exact hperm.mem_iff.mpr (List.mem_append_left _ himg)
  · exact List.length_pos_of_mem (hperm.mem_iff.mpr
      (List.mem_append_left _ himg))
  · have hsub' : (chain ++ (allImages.filter
          (fun img => img.parentId == some image.id)).filter
        (fun child => !(visited.contains child.id))).map GeneratedImage.id
        ⊆ image.id :: allImages.map GeneratedImage.id := by
      intro a ha
      rcases hsub a ha with hEq | hmem
      · exact hEq ▸ List.mem_cons_self _ _
      · exact List.mem_cons_of_mem _ hmem
    have := (List.subperm_of_subset hcatnodup hsub').length_le
    rw [List.length_cons] at this
    have hm2 : (allImages.map GeneratedImage.id).length = allImages.length :=
      List.length_map _ _
    omega
  · intro hin
    have hsub' : (chain ++ (allImages.filter
          (fun img => img.parentId == some image.id)).filter
        (fun child => !(visited.contains child.id))).map GeneratedImage.id
        ⊆ allImages.map GeneratedImage.id := by
      intro a ha
      rcases hsub a ha with hEq | hmem
      · exact hEq ▸ List.mem_map_of_mem _ hin
      · exact hmem
    have := (List.subperm_of_subset hcatnodup hsub').length_le
    have hm2 : (allImages.map GeneratedImage.id).length = allImages.length :=
      List.length_map _ _
    omega

/-- Counterexample to C2 as stated, at explicit concrete inputs.  First:
for a detached focal record whose `parentId` resolves into the
one-element store, the lineage has length 2, exceeding `|S| = 1` (and not
equal to 1 although the record is not in the store).  Second: for a store
with two distinct records sharing the id `c` (the claim quantifies over
every store), both are pushed as unvisited children and the output
contains a duplicate id. -/
theorem historyLineage_claim_counterexample :
    ((historyLineage ⟨"r", "u2", "p2", "1:1", 1, "m", some "a"⟩
        [⟨"a", "u", "p", "1:1", 0, "m", none⟩]).length = 2
      ∧ ([⟨"a", "u", "p", "1:1", 0, "m", none⟩] :
          List GeneratedImage).length = 1
      ∧ (⟨"r", "u2", "p2", "1:1", 1, "m", some "a"⟩ : GeneratedImage)
          ∉ [(⟨"a", "u", "p", "1:1", 0, "m", none⟩ : GeneratedImage)])
    ∧ ¬ ((historyLineage ⟨"r0", "u", "p", "1:1", 0, "m", none⟩
        [⟨"r0", "u", "p", "1:1", 0, "m", none⟩,
         ⟨"c", "u1", "p1", "1:1", 1, "m", some "r0"⟩,
         ⟨"c", "u2", "p2", "1:1", 2, "m", some "r0"⟩]).map
          GeneratedImage.id).Nodup := by
  decide

/-- Closed instance of `historyLineage_spec`. -/
theorem historyLineage_spec_witness :
    (imageIds [(⟨"a", "u", "p", "1:1", 0, "m", none⟩ :
        GeneratedImage)]).Nodup
    ∧ (((historyLineage ⟨"a", "u", "p", "1:1", 0, "m", none⟩
          [⟨"a", "u", "p", "1:1", 0, "m", none⟩]).map
            GeneratedImage.id).Nodup
      ∧ (⟨"a", "u", "p", "1:1", 0, "m", none⟩ : GeneratedImage)
          ∈ historyLineage ⟨"a", "u", "p", "1:1", 0, "m", none⟩
            [⟨"a", "u", "p", "1:1", 0, "m", none⟩]
      ∧ 1 ≤ (historyLineage ⟨"a", "u", "p", "1:1", 0, "m", none⟩
          [⟨"a", "u", "p", "1:1", 0, "m", none⟩]).length
      ∧ (historyLineage ⟨"a", "u", "p", "1:1", 0, "m", none⟩
          [⟨"a", "u", "p", "1:1", 0, "m", none⟩]).length
            ≤ [(⟨"a", "u", "p", "1:1", 0, "m", none⟩ :
              GeneratedImage)].length + 1
      ∧ ((⟨"a", "u", "p", "1:1", 0, "m", none⟩ : GeneratedImage)
            ∈ [(⟨"a", "u", "p", "1:1", 0, "m", none⟩ : GeneratedImage)] →
          (historyLineage ⟨"a", "u", "p", "1:1", 0, "m", none⟩
            [⟨"a", "u", "p", "1:1", 0, "m", none⟩]).length
              ≤ [(⟨"a", "u", "p", "1:1", 0, "m", none⟩ :
                GeneratedImage)].length)) :=
  ⟨by decide,
   historyLineage_spec ⟨"a", "u", "p", "1:1", 0, "m", none⟩
     [⟨"a", "u", "p", "1:1", 0, "m", none⟩] (by decide)⟩

theorem chainWalk_succ_eq (allImages : List GeneratedImage)
    (univ : List String) (_hu : univ.Nodup)
    (hall : ∀ r ∈ allImages, r.id ∈ univ) :
    ∀ (fuel : Nat) (curr : Option GeneratedImage) (visited : List String)
      (lineage : List GeneratedImage),
      visited.Nodup →
      (∀ i ∈ visited, i ∈ univ) →
      (∀ c, curr = some c → c.id ∈ univ) →
      univ.length ≤ fuel + visited.length →
      chainWalk allImages (fuel + 1) curr visited lineage
        = chainWalk allImages fuel curr visited lineage := by
  intro fuel
  induction fuel with
  | zero =>
      intro curr visited lineage hvnd hvsub hcur hbound
      cases curr with
      | none => rfl
      | some c =>
          rw [chainWalk_zero, chainWalk_succ_some]
          by_cases hmem : c.id ∈ visited
          · rw [if_pos hmem]
          · exfalso
            have hcons : (c.id :: visited).Nodup :=
              List.nodup_cons.mpr ⟨hmem, hvnd⟩
            have hsubc : c.id :: visited ⊆ univ := by
              intro a ha
              rcases List.mem_cons.mp ha with hEq | hv
              · exact hEq ▸ hcur c rfl
              · exact hvsub a hv
            have := (List.subperm_of_subset hcons hsubc).length_le
            rw [List.length_cons] at this
            omega
  | succ k ih =>
      intro curr visited lineage hvnd hvsub hcur hbound
      cases curr with
      | none => rfl
      | some c =>
          rw [chainWalk_succ_some, chainWalk_succ_some]
          by_cases hmem : c.id ∈ visited
          · rw [if_pos hmem, if_pos hmem]
          · rw [if_neg hmem, if_neg hmem]
            cases hp : c.parentId with
            | some pid =>
                refine ih (findParent allImages pid) (c.id :: visited)
                  (c :: lineage) (List.nodup_cons.mpr ⟨hmem, hvnd⟩) ?_ ?_ ?_
                · intro a ha
                  rcases List.mem_cons.mp ha with hEq | hv
                  · exact hEq ▸ hcur c rfl
                  · exact hvsub a hv
                · intro c' hc'
                  exact hall c' (List.mem_of_find?_eq_some hc')
                · rw [List.length_cons]
                  omega
            | none => rfl

/-- The fuel `allImages.length + 1` handed to `chainWalk` by
`historyLineage` is never the reason the walk stops: any surplus fuel
computes the same result, so the embedding agrees with the unbounded
while loop of `Editor.tsx` (which terminates by the same visited-set
argument). -/
theorem chainWalk_fuel_irrelevant (allImages : List GeneratedImage)
    (image : GeneratedImage) (extraFuel : Nat) :
    chainWalk allImages (allImages.length + 1 + extraFuel) (some image) [] []
      = chainWalk allImages (allImages.length + 1) (some image) [] [] := by
  induction extraFuel with
  | zero => rfl
  | succ k ih =>
      rw [← ih]
      refine chainWalk_succ_eq allImages
        ((image.id :: allImages.map GeneratedImage.id).dedup)
        (List.nodup_dedup _) ?_ (allImages.length + 1 + k) (some image) [] []
        List.nodup_nil ?_ ?_ ?_
      · intro r hr
        exact List.mem_dedup.mpr
          (List.mem_cons_of_mem _ (List.mem_map_of_mem _ hr))
      · intro i hi
        exact absurd hi (List.not_mem_nil i)
      · intro c hc
        injection hc with hc
        exact hc ▸ List.mem_dedup.mpr (List.mem_cons_self _ _)
      · have hdl := (List.dedup_sublist
          (image.id :: allImages.map GeneratedImage.id)).length_le
        rw [List.length_cons] at hdl
        have hm : (allImages.map GeneratedImage.id).length
            = allImages.length := List.length_map _ _
        omega

end BananaGen
